import Mathlib

/-
  Shallow embedding of the sales-analytics pipeline
  (src/utils/data_processor.py) and proofs about it.

  Conventions of the embedding:
  * Python dictionaries with string keys that are filled in insertion order
    are modelled as association lists `List (String × ...)`; the
    update-or-append helper `bump` mirrors the
    `if key not in d: d[key] = init; d[key] += ...` idiom and keeps
    first-encounter (insertion) order, exactly as CPython dicts do.
  * Python floats used for money are modelled as `ℚ`.
  * Python's fallible division is modelled by `pydiv`, returning `none`
    where Python would raise `ZeroDivisionError`.  Where the source guards
    a division with a conditional expression (`x / y if y else 0`), the
    embedding uses the same conditional and stays total.
  * Python sets of strings are modelled as first-encounter deduplicated
    lists; only their cardinality reaches any output used by the claims.
-/

namespace SalesAnalytics

/-- A parsed transaction record, mirroring the dictionary built by
`parse_transactions` with keys TransactionID, Date, ProductID, ProductName,
Quantity, UnitPrice, CustomerID, Region. -/
structure Tx where
  transactionID : String
  date : String
  productID : String
  productName : String
  quantity : Int
  unitPrice : ℚ
  customerID : String
  region : String
deriving DecidableEq

/-- `amount = Quantity * UnitPrice`, the derived money value used throughout
the source. -/
def amount (tx : Tx) : ℚ := (tx.quantity : ℚ) * tx.unitPrice

/-- Split a character list at every occurrence of `sep`, keeping empty
pieces — the behaviour of Python's `str.split` with an explicit single
character separator. -/
def splitCh (sep : Char) : List Char → List (List Char)
  | [] => [[]]
  | c :: rest =>
    match splitCh sep rest with
    | [] => [[]]
    | h :: t => if c = sep then [] :: h :: t else (c :: h) :: t

/-- Models Python `line.split(sep)` for a one-character separator. -/
def pySplit (sep : Char) (s : String) : List String :=
  (splitCh sep s.data).map (fun l => ⟨l⟩)

/-- Models Python `s.replace(",", "")` (removal of every comma, the only
replacement the source performs). -/
def removeCommas (s : String) : String :=
  ⟨s.data.filter (fun c => c ≠ ',')⟩

/-- Models Python `s.startswith(p)`. -/
def startsW (p s : String) : Bool :=
  p.data.isPrefixOf s.data

/-- ASCII whitespace, as stripped by Python `str.strip()` /
`int`/`float` argument cleanup. -/
def isSpaceCh (c : Char) : Bool :=
  c = ' ' || c = '\t' || c = '\n' || c = '\r'

/-- Models Python `s.strip()` on ASCII whitespace. -/
def pyTrim (s : String) : String :=
  ⟨((s.data.dropWhile isSpaceCh).reverse.dropWhile isSpaceCh).reverse⟩

/-- Lexicographic comparison of character lists by code point — Python's
`<` on strings. -/
def chLt : List Char → List Char → Bool
  | [], [] => false
  | [], _ :: _ => true
  | _ :: _, [] => false
  | a :: as, b :: bs =>
    if a < b then true else if b < a then false else chLt as bs

/-- Models Python `s < t` on strings (code-point lexicographic). -/
def strLt (a b : String) : Bool := chLt a.data b.data

/-- Value of a list of ASCII digit characters. -/
def digitsVal (ds : List Char) : Nat :=
  ds.foldl (fun n c => 10 * n + (c.toNat - 48)) 0

/-- Parse a non-empty all-digit character list, else `none`. -/
def digitsNat (ds : List Char) : Option Nat :=
  if ds ≠ [] ∧ ds.all Char.isDigit then some (digitsVal ds) else none

/-- Models Python `int(s)` on decimal strings: optional surrounding
whitespace, optional sign, a non-empty run of ASCII digits.  (Underscore
separators and non-ASCII digits accepted by CPython are not modelled; no
claim depends on them.) -/
def pyInt (s : String) : Option Int :=
  match (pyTrim s).data with
  | '-' :: ds => (digitsNat ds).map (fun n => -(n : Int))
  | '+' :: ds => (digitsNat ds).map (fun n => (n : Int))
  | ds => (digitsNat ds).map (fun n => (n : Int))

/-- Magnitude of a plain decimal literal: `digits`, `digits.digits`,
`.digits` or `digits.` (at least one digit overall). -/
def decMag (u : List Char) : Option ℚ :=
  match splitCh '.' u with
  | [ip] =>
    (digitsNat ip).map (fun n => (n : ℚ))
  | [ip, fp] =>
    if (ip ++ fp) ≠ [] ∧ (ip ++ fp).all Char.isDigit then
      some ((digitsVal ip : ℚ) + (digitsVal fp : ℚ) / (10 : ℚ) ^ fp.length)
    else none
  | _ => none

/-- Models Python `float(s)` on plain decimal literals: optional surrounding
whitespace, optional sign, digits with an optional decimal point.
(Exponents, `inf`/`nan` forms are not modelled; no claim depends on them.) -/
def pyFloat (s : String) : Option ℚ :=
  match (pyTrim s).data with
  | '-' :: ds => (decMag ds).map (fun q => -q)
  | '+' :: ds => decMag ds
  | ds => decMag ds

/-- Per-line logic of `parse_transactions`: split on `|`, require exactly 8
fields, strip commas from ProductName, convert Quantity with `int` and
UnitPrice (commas stripped) with `float`; any failure drops the line
(`continue` / caught `ValueError`). -/
def parseLine (line : String) : Option Tx :=
  match pySplit '|' line with
  | [tid, date, pid, pname, qty, price, cid, region] =>
    match pyInt qty, pyFloat (removeCommas price) with
    | some q, some p =>
      some { transactionID := tid, date := date, productID := pid,
             productName := removeCommas pname, quantity := q,
             unitPrice := p, customerID := cid, region := region }
    | _, _ => none
  | _ => none

/-- `parse_transactions`: the source loop appending each successfully parsed
line to `cleaned_transactions`. -/
def parse_transactions (rawLines : List String) : List Tx :=
  rawLines.foldl
    (fun acc line =>
      match parseLine line with
      | some tx => acc ++ [tx]
      | none => acc)
    []

/-- A line that splits into exactly 8 fields with numeric Quantity and
UnitPrice (after comma-stripping): the lines the Parser keeps. -/
def goodLine (line : String) : Bool :=
  match pySplit '|' line with
  | [_, _, _, _, qty, price, _, _] =>
    (pyInt qty).isSome && (pyFloat (removeCommas price)).isSome
  | _ => false

/-- The rejection test of `validate_and_filter` (lines 74–80): invalid iff
quantity ≤ 0, or unit price ≤ 0, or one of the three identifier
prefix checks fails. -/
def txInvalid (tx : Tx) : Bool :=
  tx.quantity ≤ 0 || tx.unitPrice ≤ 0 ||
  !(startsW "T" tx.transactionID) ||
  !(startsW "P" tx.productID) ||
  !(startsW "C" tx.customerID)

/-- The five business rules of the Validator, as the spec states them. -/
def txRulesOK (tx : Tx) : Bool :=
  (0 < tx.quantity) && (0 < tx.unitPrice) &&
  startsW "T" tx.transactionID &&
  startsW "P" tx.productID &&
  startsW "C" tx.customerID

/-- `if region and tx["Region"] != region`: the region filter fires only when
the parameter is truthy (present and non-empty) and mismatched. -/
def regionHit (region : Option String) (tx : Tx) : Bool :=
  match region with
  | none => false
  | some r => (r ≠ "" : Bool) && (tx.region ≠ r : Bool)

/-- `if min_amount and amount < min_amount`: fires only for a truthy
(non-`None`, non-zero) parameter. -/
def minHit (minAmount : Option ℚ) (amt : ℚ) : Bool :=
  match minAmount with
  | none => false
  | some m => (m ≠ 0 : Bool) && (amt < m : Bool)

/-- `if max_amount and amount > max_amount`: fires only for a truthy
(non-`None`, non-zero) parameter. -/
def maxHit (maxAmount : Option ℚ) (amt : ℚ) : Bool :=
  match maxAmount with
  | none => false
  | some m => (m ≠ 0 : Bool) && (m < amt : Bool)

/-- The per-transaction loop of `validate_and_filter`, returning
(valid transactions in input order, invalid count,
 filtered-by-region count, filtered-by-amount count). -/
def vafLoop (region : Option String) (minAmount maxAmount : Option ℚ) :
    List Tx → List Tx × Nat × Nat × Nat
  | [] => ([], 0, 0, 0)
  | tx :: rest =>
    let r := vafLoop region minAmount maxAmount rest
    if txInvalid tx then (r.1, r.2.1 + 1, r.2.2.1, r.2.2.2)
    else if regionHit region tx then (r.1, r.2.1, r.2.2.1 + 1, r.2.2.2)
    else if minHit minAmount (amount tx) then (r.1, r.2.1, r.2.2.1, r.2.2.2 + 1)
    else if maxHit maxAmount (amount tx) then (r.1, r.2.1, r.2.2.1, r.2.2.2 + 1)
    else (tx :: r.1, r.2.1, r.2.2.1, r.2.2.2)

/-- The `filter_summary` dictionary returned by `validate_and_filter`. -/
structure FilterSummary where
  totalInput : Nat
  invalid : Nat
  filteredByRegion : Nat
  filteredByAmount : Nat
  finalCount : Nat
deriving DecidableEq

/-- `validate_and_filter(transactions, region, min_amount, max_amount)`:
returns `(valid_transactions, invalid_count, filter_summary)`.  The
diagnostic prints of available regions and the amount range are
side-effect-only and not modelled. -/
def validate_and_filter (transactions : List Tx) (region : Option String)
    (minAmount maxAmount : Option ℚ) : List Tx × Nat × FilterSummary :=
  let r := vafLoop region minAmount maxAmount transactions
  (r.1, r.2.1,
   { totalInput := transactions.length
     invalid := r.2.1
     filteredByRegion := r.2.2.1
     filteredByAmount := r.2.2.2
     finalCount := r.1.length })

/-- Models Python division, which raises `ZeroDivisionError` on a zero
denominator. -/
def pydiv (a b : ℚ) : Option ℚ := if b = 0 then none else some (a / b)

/-- Models Python `round(x, 2)` on money values (rounding to the nearest
hundredth; CPython's tie direction on binary floats is not observable for
any value a claim mentions). -/
def round2 (x : ℚ) : ℚ := ((round (x * 100) : ℤ) : ℚ) / 100

/-- `d[key] = {..0..} if key not in d` followed by `+=` on a
(sum, count) accumulator dictionary: update in place, or append a fresh
entry at the end (CPython dict insertion order). -/
def bump (k : String) (a : ℚ) : List (String × ℚ × Nat) → List (String × ℚ × Nat)
  | [] => [(k, a, 1)]
  | e :: rest =>
    if e.1 = k then (e.1, e.2.1 + a, e.2.2 + 1) :: rest
    else e :: bump k a rest

/-- Fold a list of (key, amount) pairs into per-key (sum, count)
accumulators — the shared shape of the region / customer / daily
aggregation loops. -/
def aggPairs (ps : List (String × ℚ)) : List (String × ℚ × Nat) :=
  ps.foldl (fun acc p => bump p.1 p.2 acc) []

/-- Stable insertion keeping descending ℚ-key order: the new element goes
after every element whose key is ≥ its own, as Python's stable
`sorted(..., reverse=True)` does. -/
def insDesc {α : Type} (key : α → ℚ) (a : α) : List α → List α
  | [] => [a]
  | b :: bs => if key b < key a then a :: b :: bs else b :: insDesc key a bs

/-- Stable descending sort by a ℚ key (models `sorted(..., key=..., reverse=True)`). -/
def sortDesc {α : Type} (key : α → ℚ) (l : List α) : List α :=
  l.foldl (fun acc a => insDesc key a acc) []

/-- Stable insertion keeping ascending ℚ-key order. -/
def insAscQ {α : Type} (key : α → ℚ) (a : α) : List α → List α
  | [] => [a]
  | b :: bs => if key a < key b then a :: b :: bs else b :: insAscQ key a bs

/-- Stable ascending sort by a ℚ key (models `sorted(..., key=...)`/`list.sort`). -/
def sortAscQ {α : Type} (key : α → ℚ) (l : List α) : List α :=
  l.foldl (fun acc a => insAscQ key a acc) []

/-- Stable insertion keeping ascending String-key order (lexicographic,
matching Python string comparison). -/
def insAscS {α : Type} (key : α → String) (a : α) : List α → List α
  | [] => [a]
  | b :: bs => if strLt (key a) (key b) then a :: b :: bs else b :: insAscS key a bs

/-- Stable ascending sort by a String key (models `sorted(...)` over date
strings). -/
def sortAscS {α : Type} (key : α → String) (l : List α) : List α :=
  l.foldl (fun acc a => insAscS key a acc) []

/-- `calculate_total_revenue`: running float sum of `Quantity * UnitPrice`
starting from `0.0`. -/
def calculate_total_revenue (transactions : List Tx) : ℚ :=
  transactions.foldl (fun s tx => s + amount tx) 0

/-- First pass of `region_wise_sales`: per-region (total_sales,
transaction_count) accumulators in first-encounter order. -/
def regionPass1 (transactions : List Tx) : List (String × ℚ × Nat) :=
  aggPairs (transactions.map (fun tx => (tx.region, amount tx)))

/-- `region_wise_sales`: second pass divides each region's total by the
grand total (`ZeroDivisionError`, hence `none`, when that total is zero and
a region exists), then sorts by `total_sales` descending.  Entry format:
(region, total_sales, transaction_count, percentage). -/
def region_wise_sales (transactions : List Tx) :
    Option (List (String × ℚ × Nat × ℚ)) :=
  let stats := regionPass1 transactions
  let total := calculate_total_revenue transactions
  (stats.mapM (fun e =>
    (pydiv e.2.1 total).map (fun q => (e.1, e.2.1, e.2.2, round2 (q * 100))))).map
    (fun l => sortDesc (fun e => e.2.1) l)

/-- Per-product (total_quantity, total_revenue) accumulators keyed by
ProductName, in first-encounter order — the aggregation loop shared by
`top_selling_products`, `low_performing_products`,
`high_performing_products` and the report. -/
def productPass (transactions : List Tx) : List (String × Int × ℚ) :=
  transactions.foldl
    (fun acc tx => bumpProd tx.productName tx.quantity (amount tx) acc) []
where
  bumpProd (k : String) (q : Int) (r : ℚ) :
      List (String × Int × ℚ) → List (String × Int × ℚ)
    | [] => [(k, q, r)]
    | e :: rest =>
      if e.1 = k then (e.1, e.2.1 + q, e.2.2 + r) :: rest
      else e :: bumpProd k q r rest

/-- `top_selling_products(transactions, n=5)`: tuples
(ProductName, TotalQuantity, rounded TotalRevenue), sorted by quantity
descending (stable), first `n`. -/
def top_selling_products (transactions : List Tx) (n : Nat := 5) :
    List (String × Int × ℚ) :=
  (sortDesc (fun e => (e.2.1 : ℚ))
    ((productPass transactions).map (fun e => (e.1, e.2.1, round2 e.2.2)))).take n

/-- `low_performing_products(transactions, threshold=10)`: products with
total quantity strictly below the threshold, ascending by quantity. -/
def low_performing_products (transactions : List Tx) (threshold : Int := 10) :
    List (String × Int × ℚ) :=
  sortAscQ (fun e => (e.2.1 : ℚ))
    (((productPass transactions).map (fun e => (e.1, e.2.1, round2 e.2.2))).filter
      (fun e => e.2.1 < threshold))

/-- `high_performing_products(transactions, threshold=50)`: products with
total quantity at or above the threshold, descending by quantity. -/
def high_performing_products (transactions : List Tx) (threshold : Int := 50) :
    List (String × Int × ℚ) :=
  sortDesc (fun e => (e.2.1 : ℚ))
    (((productPass transactions).map (fun e => (e.1, e.2.1, round2 e.2.2))).filter
      (fun e => threshold ≤ e.2.1))

/-- Per-customer (total_spent, purchase_count, products_bought)
accumulators; the Python `set` of product names is modelled as a
first-encounter deduplicated list (CPython set iteration order is
unspecified; nothing order-sensitive is derived from it). -/
def customerPass (transactions : List Tx) :
    List (String × ℚ × Nat × List String) :=
  transactions.foldl
    (fun acc tx => bumpCust tx.customerID (amount tx) tx.productName acc) []
where
  bumpCust (k : String) (a : ℚ) (p : String) :
      List (String × ℚ × Nat × List String) →
      List (String × ℚ × Nat × List String)
    | [] => [(k, a, 1, [p])]
    | e :: rest =>
      if e.1 = k then
        (e.1, e.2.1 + a, e.2.2.1 + 1,
         if p ∈ e.2.2.2 then e.2.2.2 else e.2.2.2 ++ [p]) :: rest
      else e :: bumpCust k a p rest

/-- `customer_analysis`: adds `avg_order_value = round(total/count, 2)` per
customer (an unguarded Python division, hence `pydiv`) and sorts by
total_spent descending.  Entry format:
(customer_id, total_spent, purchase_count, avg_order_value, products_bought). -/
def customer_analysis (transactions : List Tx) :
    Option (List (String × ℚ × Nat × ℚ × List String)) :=
  ((customerPass transactions).mapM (fun e =>
    (pydiv e.2.1 (e.2.2.1 : ℚ)).map
      (fun q => (e.1, e.2.1, e.2.2.1, round2 q, e.2.2.2)))).map
    (fun l => sortDesc (fun e => e.2.1) l)

/-- Per-date (revenue, transaction_count, customers) accumulators keyed by
Date, in first-encounter order; the customer set is modelled as a
first-encounter deduplicated list (only its size is ever output). -/
def dailyPass (transactions : List Tx) :
    List (String × ℚ × Nat × List String) :=
  transactions.foldl
    (fun acc tx => bumpDaily tx.date (amount tx) tx.customerID acc) []
where
  bumpDaily (k : String) (a : ℚ) (c : String) :
      List (String × ℚ × Nat × List String) →
      List (String × ℚ × Nat × List String)
    | [] => [(k, a, 1, [c])]
    | e :: rest =>
      if e.1 = k then
        (e.1, e.2.1 + a, e.2.2.1 + 1,
         if c ∈ e.2.2.2 then e.2.2.2 else e.2.2.2 ++ [c]) :: rest
      else e :: bumpDaily k a c rest

/-- `daily_sales_trend`: per date (revenue, transaction_count,
unique_customers), sorted chronologically (lexicographically) by date. -/
def daily_sales_trend (transactions : List Tx) :
    List (String × ℚ × Nat × Nat) :=
  sortAscS (fun e => e.1)
    ((dailyPass transactions).map (fun e => (e.1, e.2.1, e.2.2.1, e.2.2.2.length)))

/-- The aggregation loop private to `find_peak_sales_day`: per-date
(revenue, transaction_count) in first-encounter order. -/
def dailyRevenue (transactions : List Tx) : List (String × ℚ × Nat) :=
  aggPairs (transactions.map (fun tx => (tx.date, amount tx)))

/-- The peak-selection scan of `find_peak_sales_day`: starting from
`(None, 0.0, 0)`, replace the current peak only on a strictly greater
revenue (`stats["revenue"] > peak_revenue`). -/
def peakScan : Option String × ℚ × Nat → List (String × ℚ × Nat) →
    Option String × ℚ × Nat
  | st, [] => st
  | st, e :: rest =>
    if st.2.1 < e.2.1 then peakScan (some e.1, e.2.1, e.2.2) rest
    else peakScan st rest

/-- `find_peak_sales_day`: returns `(peak_date, peak_revenue, peak_count)`. -/
def find_peak_sales_day (transactions : List Tx) : Option String × ℚ × Nat :=
  peakScan (none, 0, 0) (dailyRevenue transactions)

/-- The slice of an enriched transaction dictionary that
`generate_sales_report` reads: `TransactionID` and the `API_Match` flag
(`.get` yields `None` when the key is absent). -/
structure ETx where
  transactionID : String
  apiMatch : Option Bool
deriving DecidableEq

/-- ASCII digit characters of `n`, most significant first (`fuel`-bounded
division recursion; `fuel = n + 1` always suffices). -/
def natDigits : Nat → Nat → List Char
  | 0, _ => []
  | fuel + 1, n =>
    if n < 10 then [Char.ofNat (48 + n)]
    else natDigits fuel (n / 10) ++ [Char.ofNat (48 + n % 10)]

/-- Decimal rendering of a natural number (models Python `str`/`{}` on a
non-negative int). -/
def natStr (n : Nat) : String := ⟨natDigits (n + 1) n⟩

/-- Decimal rendering of an integer. -/
def intStr (i : Int) : String :=
  (if i < 0 then "-" else "") ++ natStr i.natAbs

/-- Insert a `,` after every third character of a reversed digit list —
the helper behind Python's thousands grouping. -/
def commaRev : List Char → List Char
  | a :: b :: c :: d :: rest => a :: b :: c :: ',' :: commaRev (d :: rest)
  | l => l

/-- Digits of `n` with thousands separators (e.g. 1234567 ↦ "1,234,567"). -/
def natStrGrouped (n : Nat) : String :=
  ⟨(commaRev (natDigits (n + 1) n).reverse).reverse⟩

/-- Render a signed count of hundredths as a fixed-2-decimal string,
optionally with thousands grouping of the integer part. -/
def centsStr (grouped : Bool) (n : Int) : String :=
  let m := n.natAbs
  (if n < 0 then "-" else "") ++
  (if grouped then natStrGrouped (m / 100) else natStr (m / 100)) ++
  "." ++ ⟨[Char.ofNat (48 + m % 100 / 10), Char.ofNat (48 + m % 100 % 10)]⟩

/-- Models the f-string format `{x:,.2f}` (money): nearest hundredth, two
decimals, thousands separators. -/
def fmtMoney (x : ℚ) : String := centsStr true (round (x * 100))

/-- Models the f-string format `{x:.2f}` (percent): nearest hundredth, two
decimals, no grouping. -/
def fmtPct (x : ℚ) : String := centsStr false (round (x * 100))

/-- `min(dates)` over a non-empty list: first element winning ties,
replaced only by a strictly smaller one. -/
def listMinS : List String → String
  | [] => ""
  | a :: rest => rest.foldl (fun m d => if strLt d m then d else m) a

/-- `max(dates)` over a non-empty list. -/
def listMaxS : List String → String
  | [] => ""
  | a :: rest => rest.foldl (fun m d => if strLt m d then d else m) a

/-- A run of 60 `=` characters (`"=" * 60`). -/
def eqRule : String := ⟨List.replicate 60 '='⟩

/-- A run of 60 `-` characters (`"-" * 60`). -/
def dashRule : String := ⟨List.replicate 60 '-'⟩

/-- The region accumulators the report builds for its REGION-WISE
PERFORMANCE section (`defaultdict` filled in input order — the section
iterates this sequence as-is, without sorting). -/
def reportRegionSeq (transactions : List Tx) : List (String × ℚ × Nat) :=
  aggPairs (transactions.map (fun tx => (tx.region, amount tx)))

/-- One line of the REGION-WISE PERFORMANCE section; the percentage
division is guarded by the source's `if total_revenue else 0` conditional. -/
def regionLine (totalRevenue : ℚ) (e : String × ℚ × Nat) : String :=
  e.1 ++ ": Revenue=" ++ fmtMoney e.2.1 ++
  ", Transactions=" ++ natStr e.2.2 ++
  ", Percent=" ++
  fmtPct (if totalRevenue ≠ 0 then e.2.1 / totalRevenue * 100 else 0) ++ "%\n"

/-- One line of the TOP PRODUCTS section. -/
def productLine (i : Nat) (e : String × Int × ℚ) : String :=
  natStr i ++ ". " ++ e.1 ++ " | Qty=" ++ intStr e.2.1 ++
  " | Revenue=" ++ fmtMoney e.2.2 ++ "\n"

/-- One line of the TOP CUSTOMERS section. -/
def customerLine (i : Nat) (e : String × ℚ × Nat) : String :=
  natStr i ++ ". " ++ e.1 ++ " | Spent=" ++ fmtMoney e.2.1 ++
  " | Orders=" ++ natStr e.2.2 ++ "\n"

/-- One line of the DAILY SALES TREND section. -/
def dailyLine (e : String × ℚ × Nat × List String) : String :=
  e.1 ++ ": Revenue=" ++ fmtMoney e.2.1 ++
  ", Transactions=" ++ natStr e.2.2.1 ++
  ", Unique Customers=" ++ natStr e.2.2.2.length ++ "\n"

/-- Number lines `1.`, `2.`, … as `enumerate(..., start=1)` does. -/
def enumFrom {α : Type} (i : Nat) (f : Nat → α → String) : List α → String
  | [] => ""
  | a :: rest => f i a ++ enumFrom (i + 1) f rest

/-- Everything `generate_sales_report` writes before the timestamp. -/
def reportHeadText : String :=
  "SALES ANALYTICS REPORT\n" ++ eqRule ++ "\nGenerated on: "

/-- Everything `generate_sales_report` writes after the timestamp, as a
function of the transactions and enriched transactions alone. -/
def reportRest (transactions : List Tx) (enriched : List ETx) : String :=
  let totalTransactions := transactions.length
  let totalRevenue := calculate_total_revenue transactions
  let avgOrderValue :=
    if totalTransactions ≠ 0 then totalRevenue / (totalTransactions : ℚ) else 0
  let dates := transactions.map (fun tx => tx.date)
  let dateRange :=
    if dates = ([] : List String) then "N/A"
    else listMinS dates ++ " to " ++ listMaxS dates
  let topProducts := (sortDesc (fun e => e.2.2) (productPass transactions)).take 5
  let topCustomers :=
    (sortDesc (fun e => e.2.1)
      (aggPairs (transactions.map (fun tx => (tx.customerID, amount tx))))).take 5
  let daily := sortAscS (fun e => e.1) (dailyPass transactions)
  let enrichedCount := enriched.countP (fun e => e.apiMatch = some true)
  let unmatched :=
    (enriched.filter (fun e => !(e.apiMatch = some true : Bool))).map
      (fun e => e.transactionID)
  "\nRecords Processed: " ++ natStr totalTransactions ++ "\n\n" ++
  "OVERALL SUMMARY\n" ++ dashRule ++ "\n" ++
  "Total Revenue: " ++ fmtMoney totalRevenue ++ "\n" ++
  "Total Transactions: " ++ natStr totalTransactions ++ "\n" ++
  "Average Order Value: " ++ fmtMoney avgOrderValue ++ "\n" ++
  "Date Range: " ++ dateRange ++ "\n\n" ++
  "REGION-WISE PERFORMANCE\n" ++ dashRule ++ "\n" ++
  String.join ((reportRegionSeq transactions).map (regionLine totalRevenue)) ++
  "\n" ++
  "TOP PRODUCTS\n" ++ dashRule ++ "\n" ++
  enumFrom 1 (fun i e => productLine i e) topProducts ++ "\n" ++
  "TOP CUSTOMERS\n" ++ dashRule ++ "\n" ++
  enumFrom 1 (fun i e => customerLine i e) topCustomers ++ "\n" ++
  "DAILY SALES TREND\n" ++ dashRule ++ "\n" ++
  String.join (daily.map dailyLine) ++ "\n" ++
  "API ENRICHMENT SUMMARY\n" ++ dashRule ++ "\n" ++
  "Total Enriched Transactions: " ++ natStr enrichedCount ++ "\n" ++
  "Failed Enrichments: " ++ natStr unmatched.length ++ "\n" ++
  (if unmatched = ([] : List String) then ""
   else "Unmatched Transaction IDs:\n" ++
        String.join (unmatched.map (fun t => "- " ++ t ++ "\n")))

/-- The full text the effective `generate_sales_report` (the second, later
definition in the module, which shadows the first) writes to the output
file; `now` stands for `str(datetime.now())`. -/
def generate_sales_report (now : String) (transactions : List Tx)
    (enriched : List ETx) : String :=
  reportHeadText ++ now ++ reportRest transactions enriched

/-- Lookup in a (key, sum, count) accumulator list. -/
def lookAgg (k : String) : List (String × ℚ × Nat) → Option (ℚ × Nat)
  | [] => none
  | e :: rest => if e.1 = k then some e.2 else lookAgg k rest

/-- Specification-side total of the amounts carried by key `k`. -/
def sumFor (k : String) (ps : List (String × ℚ)) : ℚ :=
  ((ps.filter (fun p => p.1 = k)).map (fun p => p.2)).sum

/-- Specification-side number of pairs carrying key `k`. -/
def cntFor (k : String) (ps : List (String × ℚ)) : Nat :=
  ps.countP (fun p => p.1 = k)

/-- First-encounter deduplication of a key sequence, continuing an already
deduplicated accumulator. -/
def feKeys (acc : List String) : List String → List String
  | [] => acc
  | k :: ks => feKeys (if k ∈ acc then acc else acc ++ [k]) ks

/-- A transaction that passes every coded validation rule but has an empty
region. -/
def emptyRegionTx : Tx :=
  ⟨"T100", "2024-01-05", "P100", "Pen", 1, 1, "C100", ""⟩

/-- A structurally well-formed transaction whose amount is `0`
(`quantity = 0`), driving `region_wise_sales` into its zero grand total. -/
def zeroAmountTx : Tx :=
  ⟨"T200", "2024-01-06", "P200", "Pen", 0, 5, "C200", "North"⟩

/-- A fully valid transaction with amount `5`, used against the
`max_amount = 0` filter. -/
def amount5Tx : Tx :=
  ⟨"T300", "2024-01-07", "P300", "Pen", 1, 5, "C300", "North"⟩

/-- Region "A", amount 1: encountered first in the C6 counterexample. -/
def regionATx : Tx :=
  ⟨"T400", "2024-01-08", "P400", "Pen", 1, 1, "C400", "A"⟩

/-- Region "B", amount 2: encountered second yet richer, so
revenue-descending order would have to list it first. -/
def regionBTx : Tx :=
  ⟨"T401", "2024-01-08", "P401", "Pen", 1, 2, "C401", "B"⟩

/-- First date of the peak-day tie example (revenue 5). -/
def peakTxA : Tx :=
  ⟨"T500", "2024-02-01", "P500", "Pen", 1, 5, "C500", "North"⟩

/-- Second date of the peak-day tie example (also revenue 5). -/
def peakTxB : Tx :=
  ⟨"T501", "2024-02-02", "P501", "Pen", 1, 5, "C501", "North"⟩

lemma txInvalid_eq_not_rules (tx : Tx) : txInvalid tx = !txRulesOK tx := by
  simp [txInvalid, txRulesOK, Bool.not_and, ← decide_not, not_lt]

lemma vafLoop_invalid (region : Option String) (mA mB : Option ℚ) (txs : List Tx) :
    (vafLoop region mA mB txs).2.1 = txs.countP (fun tx => txInvalid tx) := by
  induction txs with
  | nil => rfl
  | cons tx rest ih =>
    rcases hE : vafLoop region mA mB rest with ⟨vs, inv, fr, fa⟩
    rw [hE] at ih
    dsimp only at ih
    simp only [vafLoop, hE, List.countP_cons]
    by_cases h1 : txInvalid tx = true
    · simp [h1, ih]
    · by_cases h2 : regionHit region tx = true
      · simp [h1, h2, ih]
      · by_cases h3 : minHit mA (amount tx) = true
        · simp [h1, h2, h3, ih]
        · by_cases h4 : maxHit mB (amount tx) = true
          · simp [h1, h2, h3, h4, ih]
          · simp [h1, h2, h3, h4, ih]

lemma vafLoop_valids (region : Option String) (mA mB : Option ℚ) (txs : List Tx) :
    (vafLoop region mA mB txs).1 =
      txs.filter (fun tx => !txInvalid tx && !regionHit region tx &&
        !minHit mA (amount tx) && !maxHit mB (amount tx)) := by
  induction txs with
  | nil => rfl
  | cons tx rest ih =>
    rcases hE : vafLoop region mA mB rest with ⟨vs, inv, fr, fa⟩
    rw [hE] at ih
    dsimp only at ih
    simp only [vafLoop, hE, List.filter_cons]
    by_cases h1 : txInvalid tx = true
    · simp [h1, ih]
    · by_cases h2 : regionHit region tx = true
      · simp [h1, h2, ih]
      · by_cases h3 : minHit mA (amount tx) = true
        · simp [h1, h2, h3, ih]
        · by_cases h4 : maxHit mB (amount tx) = true
          · simp [h1, h2, h3, h4, ih]
          · simp [h1, h2, h3, h4, ih]

lemma vafLoop_total (region : Option String) (mA mB : Option ℚ) (txs : List Tx) :
    txs.length = (vafLoop region mA mB txs).2.1 + (vafLoop region mA mB txs).2.2.1 +
      (vafLoop region mA mB txs).2.2.2 + (vafLoop region mA mB txs).1.length := by
  induction txs with
  | nil => rfl
  | cons tx rest ih =>
    rcases hE : vafLoop region mA mB rest with ⟨vs, inv, fr, fa⟩
    rw [hE] at ih
    dsimp only at ih
    simp only [vafLoop, hE, List.length_cons]
    by_cases h1 : txInvalid tx = true
    · simp only [if_pos h1]; omega
    · by_cases h2 : regionHit region tx = true
      · simp only [if_neg h1, if_pos h2]; omega
      · by_cases h3 : minHit mA (amount tx) = true
        · simp only [if_neg h1, if_neg h2, if_pos h3]; omega
        · by_cases h4 : maxHit mB (amount tx) = true
          · simp only [if_neg h1, if_neg h2, if_neg h3, if_pos h4]; omega
          · simp only [if_neg h1, if_neg h2, if_neg h3, if_neg h4, List.length_cons]
            omega

lemma vafLoop_congr (region : Option String) (mA mA' mB mB' : Option ℚ)
    (hmin : ∀ x, minHit mA x = minHit mA' x)
    (hmax : ∀ x, maxHit mB x = maxHit mB' x) (txs : List Tx) :
    vafLoop region mA mB txs = vafLoop region mA' mB' txs := by
  induction txs with
  | nil => rfl
  | cons tx rest ih =>
    simp only [vafLoop, ih, hmin, hmax]

/-- C10: every input transaction is counted in exactly one of the four
buckets of `validate_and_filter`, so the summary satisfies
`total_input = invalid + filtered_by_region + filtered_by_amount +
final_count`, with `final_count` the length of `valid_transactions` and
`invalid` the returned invalid counter. -/
theorem claim_C10_partition (txs : List Tx) (region : Option String) (mA mB : Option ℚ) :
    (validate_and_filter txs region mA mB).2.2.totalInput =
      (validate_and_filter txs region mA mB).2.2.invalid +
      (validate_and_filter txs region mA mB).2.2.filteredByRegion +
      (validate_and_filter txs region mA mB).2.2.filteredByAmount +
      (validate_and_filter txs region mA mB).2.2.finalCount ∧
    (validate_and_filter txs region mA mB).2.2.finalCount =
      (validate_and_filter txs region mA mB).1.length ∧
    (validate_and_filter txs region mA mB).2.2.invalid =
      (validate_and_filter txs region mA mB).2.1 := by
  refine ⟨?_, rfl, rfl⟩
  exact vafLoop_total region mA mB txs

/-- C4 (amended): an amount bound supplied as the numeric value `0` is
treated exactly like an absent parameter — Python's truthiness test
`if min_amount and ...` / `if max_amount and ...` skips the comparison —
so `min_amount = 0` and `max_amount = 0` perform no amount filtering at
all. -/
theorem claim_C4_amended (txs : List Tx) (region : Option String) (other : Option ℚ) :
    validate_and_filter txs region (some 0) other = validate_and_filter txs region none other ∧
    validate_and_filter txs region other (some 0) = validate_and_filter txs region other none := by
  constructor
  · unfold validate_and_filter
    rw [vafLoop_congr region (some 0) none other other
      (fun x => by simp [minHit]) (fun _ => rfl) txs]
  · unfold validate_and_filter
    rw [vafLoop_congr region other other (some 0) none
      (fun _ => rfl) (fun x => by simp [maxHit]) txs]

/-- C4 (counterexample): with `max_amount = 0` a validated transaction of
amount `5 > 0` is NOT dropped — it stays in the output and
`filtered_by_amount` stays `0`, contradicting the claim that the bound is
still applied when the caller passes `0`. -/
theorem claim_C4_counterexample :
    (validate_and_filter [amount5Tx] none none (some 0)).1 = [amount5Tx] ∧
    (validate_and_filter [amount5Tx] none none (some 0)).2.2.filteredByAmount = 0 := by
  decide

/-- C1 (amended): membership in the `valid_transactions` output implies
the five coded rules (positive quantity, positive unit price, and the
`T`/`P`/`C` identifier prefix checks); any transaction failing one of
those five rules is absent from the output; and the invalid counter counts
exactly the rule-failing transactions.  (The region non-emptiness rule of
the original claim is NOT checked by the code — see the counterexample.) -/
theorem claim_C1_amended (txs : List Tx) (region : Option String) (mA mB : Option ℚ) :
    (∀ tx ∈ (validate_and_filter txs region mA mB).1, txRulesOK tx = true) ∧
    (∀ tx : Tx, txRulesOK tx = false → tx ∉ (validate_and_filter txs region mA mB).1) ∧
    (validate_and_filter txs region mA mB).2.1 = txs.countP (fun tx => !txRulesOK tx) := by
  have hmem : ∀ tx ∈ (validate_and_filter txs region mA mB).1, txRulesOK tx = true := by
    intro tx htx
    unfold validate_and_filter at htx
    dsimp only at htx
    rw [vafLoop_valids] at htx
    have hp := List.of_mem_filter htx
    simp only [Bool.and_eq_true, Bool.not_eq_true'] at hp
    have := hp.1.1.1
    rwa [txInvalid_eq_not_rules, Bool.not_eq_false'] at this
  refine ⟨hmem, ?_, ?_⟩
  · intro tx h hmemtx
    exact absurd (hmem tx hmemtx) (by simp [h])
  · unfold validate_and_filter
    dsimp only
    rw [vafLoop_invalid]
    exact List.countP_congr (fun tx _ => by rw [txInvalid_eq_not_rules])

/-- C1 (witness): instantiating the amended theorem on a concrete valid
transaction kept by `validate_and_filter`. -/
theorem claim_C1_witness : txRulesOK amount5Tx = true :=
  (claim_C1_amended [amount5Tx] none none none).1 amount5Tx (by decide)

/-- C1 (counterexample): a transaction with an EMPTY region but otherwise
valid fields is kept in `valid_transactions` and not counted invalid, so
the claimed "region non-empty" business rule is not enforced by
`validate_and_filter`. -/
theorem claim_C1_counterexample :
    emptyRegionTx ∈ (validate_and_filter [emptyRegionTx] none none none).1 ∧
    emptyRegionTx.region = "" ∧
    (validate_and_filter [emptyRegionTx] none none none).2.1 = 0 := by
  decide

lemma sumFor_cons (k : String) (p : String × ℚ) (ps : List (String × ℚ)) :
    sumFor k (p :: ps) = (if p.1 = k then p.2 else 0) + sumFor k ps := by
  by_cases h : p.1 = k <;> simp [sumFor, List.filter_cons, h]

lemma cntFor_cons (k : String) (p : String × ℚ) (ps : List (String × ℚ)) :
    cntFor k (p :: ps) = (if p.1 = k then 1 else 0) + cntFor k ps := by
  by_cases h : p.1 = k
  · simp [cntFor, List.countP_cons, h]
    omega
  · simp [cntFor, List.countP_cons, h]

lemma bump_keys (k : String) (a : ℚ) (l : List (String × ℚ × Nat)) :
    (bump k a l).map Prod.fst =
      if k ∈ l.map Prod.fst then l.map Prod.fst else l.map Prod.fst ++ [k] := by
  induction l with
  | nil => simp [bump]
  | cons e rest ih =>
    by_cases h : e.1 = k
    · simp [bump, h]
    · simp only [bump, if_neg h, List.map_cons, ih]
      by_cases hm : k ∈ rest.map Prod.fst
      · simp [hm, h, Ne.symm h]
      · simp [hm, h, Ne.symm h]

lemma lookAgg_bump_self (k : String) (a : ℚ) (l : List (String × ℚ × Nat)) :
    lookAgg k (bump k a l) =
      some (((lookAgg k l).getD (0, 0)).1 + a, ((lookAgg k l).getD (0, 0)).2 + 1) := by
  induction l with
  | nil => simp [bump, lookAgg]
  | cons e rest ih =>
    by_cases h : e.1 = k
    · simp [bump, lookAgg, h]
    · simp [bump, lookAgg, h, ih]

lemma lookAgg_bump_ne {k' k : String} (h : k' ≠ k) (a : ℚ) (l : List (String × ℚ × Nat)) :
    lookAgg k' (bump k a l) = lookAgg k' l := by
  induction l with
  | nil => simp [bump, lookAgg, Ne.symm h]
  | cons e rest ih =>
    by_cases he : e.1 = k
    · have : ¬ e.1 = k' := by rw [he]; exact Ne.symm h
      simp [bump, lookAgg, he, this, Ne.symm h]
    · by_cases he' : e.1 = k'
      · simp [bump, lookAgg, he, he', h, Ne.symm h]
      · simp [bump, lookAgg, he, he', ih]

lemma aggFold_some (ps : List (String × ℚ)) :
    ∀ (acc : List (String × ℚ × Nat)) (k : String) (s : ℚ) (c : Nat),
      lookAgg k acc = some (s, c) →
      lookAgg k (ps.foldl (fun acc p => bump p.1 p.2 acc) acc) =
        some (s + sumFor k ps, c + cntFor k ps) := by
  induction ps with
  | nil => intro acc k s c h; simp [sumFor, cntFor, h]
  | cons p ps ih =>
    intro acc k s c h
    simp only [List.foldl_cons, sumFor_cons, cntFor_cons]
    by_cases hk : p.1 = k
    · have hb : lookAgg k (bump p.1 p.2 acc) = some (s + p.2, c + 1) := by
        rw [hk, lookAgg_bump_self, h]
        rfl
      rw [ih _ _ _ _ hb]
      simp [hk]
      constructor <;> [ring; omega]
    · have hb : lookAgg k (bump p.1 p.2 acc) = some (s, c) := by
        rw [lookAgg_bump_ne (fun he => hk he.symm), h]
      rw [ih _ _ _ _ hb]
      simp [hk]

lemma aggFold_none (ps : List (String × ℚ)) :
    ∀ (acc : List (String × ℚ × Nat)) (k : String),
      lookAgg k acc = none →
      lookAgg k (ps.foldl (fun acc p => bump p.1 p.2 acc) acc) =
        if cntFor k ps = 0 then none else some (sumFor k ps, cntFor k ps) := by
  induction ps with
  | nil => intro acc k h; simp [sumFor, cntFor, h]
  | cons p ps ih =>
    intro acc k h
    simp only [List.foldl_cons, sumFor_cons, cntFor_cons]
    by_cases hk : p.1 = k
    · have hb : lookAgg k (bump p.1 p.2 acc) = some (p.2, 1) := by
        rw [hk, lookAgg_bump_self, h]
        simp
      rw [aggFold_some ps _ _ _ _ hb]
      simp [hk]
    · have hb : lookAgg k (bump p.1 p.2 acc) = none := by
        rw [lookAgg_bump_ne (fun he => hk he.symm), h]
      rw [ih _ _ hb]
      simp [hk]

lemma lookAgg_aggPairs (ps : List (String × ℚ)) (k : String) :
    lookAgg k (aggPairs ps) =
      if cntFor k ps = 0 then none else some (sumFor k ps, cntFor k ps) :=
  aggFold_none ps [] k rfl

lemma aggFold_keys (ps : List (String × ℚ)) :
    ∀ acc : List (String × ℚ × Nat),
      (ps.foldl (fun acc p => bump p.1 p.2 acc) acc).map Prod.fst =
        feKeys (acc.map Prod.fst) (ps.map Prod.fst) := by
  induction ps with
  | nil => intro acc; simp [feKeys]
  | cons p ps ih =>
    intro acc
    simp only [List.foldl_cons, List.map_cons, feKeys, ih, bump_keys]

lemma aggPairs_keys (ps : List (String × ℚ)) :
    (aggPairs ps).map Prod.fst = feKeys [] (ps.map Prod.fst) :=
  aggFold_keys ps []

lemma feKeys_nodup : ∀ (ks acc : List String), acc.Nodup → (feKeys acc ks).Nodup := by
  intro ks
  induction ks with
  | nil => intro acc h; exact h
  | cons k ks ih =>
    intro acc h
    simp only [feKeys]
    apply ih
    by_cases hm : k ∈ acc
    · simpa [hm] using h
    · simp only [if_neg hm]
      simp [List.nodup_append, h, hm]

lemma aggPairs_keys_nodup (ps : List (String × ℚ)) :
    ((aggPairs ps).map Prod.fst).Nodup := by
  rw [aggPairs_keys]
  exact feKeys_nodup _ _ List.nodup_nil

lemma lookAgg_eq_of_mem :
    ∀ {l : List (String × ℚ × Nat)}, (l.map Prod.fst).Nodup →
      ∀ {k : String} {v : ℚ × Nat}, (k, v) ∈ l → lookAgg k l = some v := by
  intro l
  induction l with
  | nil => intro _ k v h; simp at h
  | cons e rest ih =>
    intro hnd k v hm
    simp only [List.map_cons, List.nodup_cons] at hnd
    rcases List.mem_cons.mp hm with he | hr
    · rw [← he]
      simp [lookAgg]
    · have hk : ¬ e.1 = k := by
        intro hek
        exact hnd.1 (hek ▸ (List.mem_map.mpr ⟨(k, v), hr, rfl⟩))
      simp only [lookAgg, if_neg hk]
      exact ih hnd.2 hr

lemma aggPairs_mem (ps : List (String × ℚ)) {k : String} {s : ℚ} {c : Nat}
    (h : (k, s, c) ∈ aggPairs ps) : s = sumFor k ps ∧ c = cntFor k ps := by
  have hl := lookAgg_eq_of_mem (aggPairs_keys_nodup ps) h
  rw [lookAgg_aggPairs] at hl
  by_cases hc : cntFor k ps = 0
  · simp [hc] at hl
  · rw [if_neg hc] at hl
    have h2 := Option.some.inj hl
    exact ⟨(congrArg Prod.fst h2).symm, (congrArg Prod.snd h2).symm⟩

lemma regionSeq_AB :
    reportRegionSeq [regionATx, regionBTx] = [("A", 1, 1), ("B", 2, 1)] := by
  norm_num [reportRegionSeq, aggPairs, bump, amount, regionATx, regionBTx]
  decide

/-- C6 (counterexample): on an input meeting region "A" (revenue 1) before
region "B" (revenue 2), the REGION-WISE PERFORMANCE section of the
effective `generate_sales_report` iterates ("A", …) before ("B", …) — its
line sequence is NOT sorted by revenue descending, contradicting the
claim. -/
theorem claim_C6_counterexample :
    reportRegionSeq [regionATx, regionBTx] = [("A", 1, 1), ("B", 2, 1)] ∧
    ¬ List.Pairwise (fun x y : String × ℚ × Nat => y.2.1 ≤ x.2.1)
        (reportRegionSeq [regionATx, regionBTx]) := by
  refine ⟨regionSeq_AB, ?_⟩
  rw [regionSeq_AB]
  intro h
  have := List.rel_of_pairwise_cons h (List.mem_singleton.mpr rfl)
  norm_num at this

/-- C6 (amended): the REGION-WISE PERFORMANCE section of
`generate_sales_report` lists regions in FIRST-ENCOUNTER (dict insertion)
order, not sorted by revenue; each entry of the rendered sequence carries
that region's total revenue (sum of its transactions' amounts) and its
transaction count, and `regionLine` renders revenue, count and percentage
of total for each. -/
theorem claim_C6_amended (txs : List Tx) :
    (reportRegionSeq txs).map Prod.fst = feKeys [] (txs.map (fun tx => tx.region)) ∧
    (∀ e ∈ reportRegionSeq txs,
      e.2.1 = sumFor e.1 (txs.map (fun tx => (tx.region, amount tx))) ∧
      e.2.2 = cntFor e.1 (txs.map (fun tx => (tx.region, amount tx)))) := by
  constructor
  · rw [reportRegionSeq, aggPairs_keys, List.map_map]
    rfl
  · intro e he
    rcases e with ⟨k, s, c⟩
    exact aggPairs_mem _ he

/-- C6 (witness): the amended theorem instantiated on the concrete
two-region input, at the entry of region "A". -/
theorem claim_C6_witness :
    (1 : ℚ) = sumFor "A" ([regionATx, regionBTx].map (fun tx => (tx.region, amount tx))) ∧
    (1 : Nat) = cntFor "A" ([regionATx, regionBTx].map (fun tx => (tx.region, amount tx))) :=
  (claim_C6_amended [regionATx, regionBTx]).2 ("A", 1, 1)
    (by rw [regionSeq_AB]; simp)

lemma peakScan_all_le :
    ∀ (l : List (String × ℚ × Nat)) (pd₀ : Option String) (pr₀ : ℚ) (pc₀ : Nat),
      (∀ e ∈ l, e.2.1 ≤ pr₀) → peakScan (pd₀, pr₀, pc₀) l = (pd₀, pr₀, pc₀) := by
  intro l
  induction l with
  | nil => intro _ _ _ _; rfl
  | cons a rest ih =>
    intro pd₀ pr₀ pc₀ h
    have ha : ¬ pr₀ < a.2.1 := not_lt.mpr (h a (List.mem_cons_self a rest))
    simp only [peakScan, if_neg ha]
    exact ih pd₀ pr₀ pc₀ (fun e he => h e (List.mem_cons_of_mem a he))

lemma peakScan_exists_gt :
    ∀ (l : List (String × ℚ × Nat)) (pd₀ : Option String) (pr₀ : ℚ) (pc₀ : Nat),
      (∃ e ∈ l, pr₀ < e.2.1) →
      ∃ (l₁ : List (String × ℚ × Nat)) (d : String) (r : ℚ) (c : Nat)
        (l₂ : List (String × ℚ × Nat)),
        l = l₁ ++ (d, r, c) :: l₂ ∧
        peakScan (pd₀, pr₀, pc₀) l = (some d, r, c) ∧
        pr₀ < r ∧ (∀ e ∈ l₁, e.2.1 < r) ∧ (∀ e ∈ l, e.2.1 ≤ r) := by
  intro l
  induction l with
  | nil => intro _ _ _ h; simp at h
  | cons a rest ih =>
    intro pd₀ pr₀ pc₀ hex
    by_cases h : pr₀ < a.2.1
    · by_cases h2 : ∃ e ∈ rest, a.2.1 < e.2.1
      · obtain ⟨l₁, d, r, c, l₂, hl, hscan, hgt, hl₁, hall⟩ := ih (some a.1) a.2.1 a.2.2 h2
        refine ⟨a :: l₁, d, r, c, l₂, by rw [hl, List.cons_append], ?_, lt_trans h hgt, ?_, ?_⟩
        · simp only [peakScan, if_pos h]
          exact hscan
        · intro e he
          rcases List.mem_cons.mp he with rfl | hmem
          · exact hgt
          · exact hl₁ e hmem
        · intro e he
          rcases List.mem_cons.mp he with rfl | hmem
          · exact le_of_lt hgt
          · exact hall e hmem
      · push_neg at h2
        refine ⟨[], a.1, a.2.1, a.2.2, rest, rfl, ?_, h, by simp, ?_⟩
        · simp only [peakScan, if_pos h]
          exact peakScan_all_le rest (some a.1) a.2.1 a.2.2 h2
        · intro e he
          rcases List.mem_cons.mp he with rfl | hmem
          · exact le_refl _
          · exact h2 e hmem
    · obtain ⟨e₀, he₀, hgt₀⟩ := hex
      have he₀' : e₀ ∈ rest := by
        rcases List.mem_cons.mp he₀ with rfl | hmem
        · exact absurd hgt₀ h
        · exact hmem
      obtain ⟨l₁, d, r, c, l₂, hl, hscan, hgt, hl₁, hall⟩ :=
        ih pd₀ pr₀ pc₀ ⟨e₀, he₀', hgt₀⟩
      have haler : a.2.1 < r := lt_of_le_of_lt (not_lt.mp h) hgt
      refine ⟨a :: l₁, d, r, c, l₂, by rw [hl, List.cons_append], ?_, hgt, ?_, ?_⟩
      · simp only [peakScan, if_neg h]
        exact hscan
      · intro e he
        rcases List.mem_cons.mp he with rfl | hmem
        · exact haler
        · exact hl₁ e hmem
      · intro e he
        rcases List.mem_cons.mp he with rfl | hmem
        · exact le_of_lt haler
        · exact hall e hmem

lemma dailyRevenue_peak_eval :
    dailyRevenue [peakTxA, peakTxB] = [("2024-02-01", 5, 1), ("2024-02-02", 5, 1)] := by
  norm_num [dailyRevenue, aggPairs, bump, amount, peakTxA, peakTxB]
  decide

lemma find_peak_eval :
    find_peak_sales_day [peakTxA, peakTxB] = (some "2024-02-01", 5, 1) := by
  rw [find_peak_sales_day, dailyRevenue_peak_eval]
  decide

/-- C3: `find_peak_sales_day` aggregates revenue and count per date
(first-encounter order); from the `0` baseline it returns no peak date iff
every daily revenue is ≤ 0 (in particular for an all-zero or empty
dataset), and when it returns a date, that date's revenue is positive, is
≥ every daily revenue, and every date encountered before it has strictly
smaller revenue — so on a tie the first-encountered date wins (strict `>`
comparison never replaces an equal peak). -/
theorem claim_C3_peak (txs : List Tx) :
    (∀ e ∈ dailyRevenue txs,
      e.2.1 = sumFor e.1 (txs.map (fun tx => (tx.date, amount tx))) ∧
      e.2.2 = cntFor e.1 (txs.map (fun tx => (tx.date, amount tx)))) ∧
    ((find_peak_sales_day txs).1 = none →
      find_peak_sales_day txs = (none, 0, 0) ∧ ∀ e ∈ dailyRevenue txs, e.2.1 ≤ 0) ∧
    (∀ d : String, (find_peak_sales_day txs).1 = some d →
      0 < (find_peak_sales_day txs).2.1 ∧
      (∀ e ∈ dailyRevenue txs, e.2.1 ≤ (find_peak_sales_day txs).2.1) ∧
      ∃ l₁ l₂, dailyRevenue txs =
        l₁ ++ (d, (find_peak_sales_day txs).2.1, (find_peak_sales_day txs).2.2) :: l₂ ∧
        ∀ e ∈ l₁, e.2.1 < (find_peak_sales_day txs).2.1) := by
  refine ⟨?_, ?_⟩
  · intro e he
    rcases e with ⟨k, s, c⟩
    exact aggPairs_mem _ he
  by_cases hex : ∃ e ∈ dailyRevenue txs, (0 : ℚ) < e.2.1
  · obtain ⟨l₁, d, r, c, l₂, hl, hscan, hgt, hl₁, hall⟩ :=
      peakScan_exists_gt (dailyRevenue txs) none 0 0 hex
    have hfp : find_peak_sales_day txs = (some d, r, c) := hscan
    constructor
    · intro hnone
      rw [hfp] at hnone
      simp at hnone
    · intro d' hd'
      rw [hfp] at hd'
      have hdd : d' = d := (Option.some.inj hd').symm
      subst hdd
      rw [hfp]
      exact ⟨hgt, hall, l₁, l₂, hl, hl₁⟩
  · push_neg at hex
    have hfp : find_peak_sales_day txs = (none, 0, 0) :=
      peakScan_all_le (dailyRevenue txs) none 0 0 hex
    constructor
    · intro _
      exact ⟨hfp, hex⟩
    · intro d hd
      rw [hfp] at hd
      simp at hd

/-- C3 (witness): on two dates tying at revenue 5, the theorem applies with
the first-encountered date as the peak and yields its positive revenue. -/
theorem claim_C3_witness :
    0 < (find_peak_sales_day [peakTxA, peakTxB]).2.1 ∧
    (find_peak_sales_day [peakTxA, peakTxB]).1 = some "2024-02-01" :=
  ⟨((claim_C3_peak [peakTxA, peakTxB]).2.2 "2024-02-01"
      (by rw [find_peak_eval])).1,
   by rw [find_peak_eval]⟩

lemma parse_loop (lines : List String) :
    ∀ acc : List Tx,
      List.foldl (fun acc line =>
          match parseLine line with
          | some tx => acc ++ [tx]
          | none => acc) acc lines =
        acc ++ lines.filterMap parseLine := by
  induction lines with
  | nil => intro acc; simp
  | cons l ls ih =>
    intro acc
    simp only [List.foldl_cons, List.filterMap_cons]
    cases h : parseLine l with
    | none => simp only [h, ih]
    | some tx => simp [h, ih]

lemma parseLine_isSome (l : String) : (parseLine l).isSome = goodLine l := by
  unfold parseLine goodLine
  rcases pySplit '|' l with
    _ | ⟨t1, _ | ⟨t2, _ | ⟨t3, _ | ⟨t4, _ | ⟨t5, _ | ⟨t6, _ | ⟨t7, _ | ⟨t8, _ | ⟨t9, r⟩⟩⟩⟩⟩⟩⟩⟩⟩ <;>
    first
      | rfl
      | (dsimp only
         rcases h1 : pyInt t5 with _ | q <;> rcases h2 : pyFloat (removeCommas t6) with _ | p <;>
           simp [h1, h2])

lemma length_filterMap_countP (f : String → Option Tx) (l : List String) :
    (l.filterMap f).length = l.countP (fun a => (f a).isSome) := by
  induction l with
  | nil => rfl
  | cons a l ih =>
    rw [List.filterMap_cons, List.countP_cons]
    cases h : f a with
    | none => simp [h, ih]
    | some b => simp [h, ih]

/-- C7: `parse_transactions` keeps exactly the lines that split into 8
pipe-delimited fields with an `int`-convertible quantity and a
`float`-convertible unit price after comma stripping (the output IS the
in-order `filterMap` of the per-line parser, so order is preserved and
duplicates are kept), and the kept count equals the number of such good
lines. -/
theorem claim_C7_parse (rawLines : List String) :
    parse_transactions rawLines = rawLines.filterMap parseLine ∧
    (parse_transactions rawLines).length = rawLines.countP goodLine := by
  have h1 : parse_transactions rawLines = rawLines.filterMap parseLine := by
    unfold parse_transactions
    simpa using parse_loop rawLines []
  refine ⟨h1, ?_⟩
  rw [h1, length_filterMap_countP]
  exact List.countP_congr (fun a _ => by rw [parseLine_isSome])

/-- C2 (code bug): on a non-empty transaction list whose amounts are all
`0`, `region_wise_sales` divides by the zero grand total — the embedded
function returns `none` where Python raises `ZeroDivisionError` — instead
of producing the `percentage = 0` the spec prescribes. -/
theorem claim_C2_zero_total_raises :
    region_wise_sales [zeroAmountTx] = none := by
  norm_num [region_wise_sales, regionPass1, aggPairs, bump, amount,
    calculate_total_revenue, pydiv, zeroAmountTx]
  decide

/-- C5 (counterexample): two runs of the pipeline with different clock
readings produce different report bytes — the `Generated on:` line embeds
`datetime.now()`, so the report is NOT a function of the transaction
arguments alone. -/
theorem claim_C5_counterexample :
    generate_sales_report "2024-01-01 00:00:00" [] [] ≠
      generate_sales_report "2024-01-01 00:00:01" [] [] := by
  intro h
  have hd := congrArg String.data h
  simp only [generate_sales_report, String.data_append] at hd
  have h1 := List.append_cancel_right hd
  have h2 := List.append_cancel_left h1
  exact absurd h2 (by decide)

/-- C5 (amended): apart from the timestamp spliced into the `Generated on:`
slot, the report text is a deterministic function of the transactions and
enriched transactions alone: there are a fixed head and a tail depending
only on those arguments such that every run's output is
`head ++ timestamp ++ tail` — two runs on the same data differ in no byte
outside the timestamp. -/
theorem claim_C5_amended (txs : List Tx) (enriched : List ETx) :
    ∃ pre post : String, ∀ now : String,
      generate_sales_report now txs enriched = pre ++ now ++ post :=
  ⟨reportHeadText, reportRest txs enriched, fun _ => rfl⟩

lemma fmtMoney_zero : fmtMoney 0 = "0.00" := by
  have h : round ((0 : ℚ) * 100) = 0 := by norm_num
  simp only [fmtMoney, h]
  decide

set_option maxRecDepth 4000 in
lemma reportRest_empty :
    reportRest [] [] = "\nRecords Processed: 0\n\nOVERALL SUMMARY\n" ++ dashRule ++ "\nTotal Revenue: 0.00\nTotal Transactions: 0\nAverage Order Value: 0.00\nDate Range: N/A\n\nREGION-WISE PERFORMANCE\n" ++ dashRule ++ "\n\nTOP PRODUCTS\n" ++ dashRule ++ "\n\nTOP CUSTOMERS\n" ++ dashRule ++ "\n\nDAILY SALES TREND\n" ++ dashRule ++ "\n\nAPI ENRICHMENT SUMMARY\n" ++ dashRule ++ "\nTotal Enriched Transactions: 0\nFailed Enrichments: 0\n" := by
  have hc : calculate_total_revenue [] = 0 := rfl
  norm_num [reportRest, hc, fmtMoney_zero]
  decide

set_option maxRecDepth 8000 in
/-- C8: with zero valid transactions nothing crashes: total revenue is `0`,
every aggregate view is empty (the fallible ones return `some []`, the
peak is `(None, 0, 0)`), and the report renders with every
divide-by-count/total special-cased — average order value prints `0.00`
and the date range prints `N/A`. -/
theorem claim_C8_empty_dataset :
    calculate_total_revenue [] = 0 ∧
    region_wise_sales [] = some [] ∧
    top_selling_products [] 5 = [] ∧
    low_performing_products [] 10 = [] ∧
    high_performing_products [] 50 = [] ∧
    customer_analysis [] = some [] ∧
    daily_sales_trend [] = [] ∧
    find_peak_sales_day [] = (none, 0, 0) ∧
    ∀ now : String, generate_sales_report now [] [] =
      "SALES ANALYTICS REPORT\n" ++ eqRule ++ "\nGenerated on: " ++ now ++ "\nRecords Processed: 0\n\nOVERALL SUMMARY\n" ++ dashRule ++ "\nTotal Revenue: 0.00\nTotal Transactions: 0\nAverage Order Value: 0.00\nDate Range: N/A\n\nREGION-WISE PERFORMANCE\n" ++ dashRule ++ "\n\nTOP PRODUCTS\n" ++ dashRule ++ "\n\nTOP CUSTOMERS\n" ++ dashRule ++ "\n\nDAILY SALES TREND\n" ++ dashRule ++ "\n\nAPI ENRICHMENT SUMMARY\n" ++ dashRule ++ "\nTotal Enriched Transactions: 0\nFailed Enrichments: 0\n" := by
  refine ⟨rfl, rfl, rfl, rfl, rfl, rfl, rfl, rfl, ?_⟩
  intro now
  show reportHeadText ++ now ++ reportRest [] [] = _
  rw [reportRest_empty]
  apply String.ext
  simp only [reportHeadText, String.data_append, List.append_assoc]

end SalesAnalytics
